import Mathlib

/-!
Shallow embedding of the access-control and CRUD core of the
garagemanager repository (src/garage_server.py and src/app/app1.py),
with theorems settling the frozen claims about it.

Python strings that the credential logic slices and splits are
modelled as `List Char`; timestamps are modelled as `Int` (the source
compares ISO-8601 strings of a fixed shape, whose lexicographic order
agrees with chronological order, and POSIX float timestamps, whose
order an `Int` abstraction preserves).  Randomness (salts, tokens,
SQL `RANDOM()` tie-breaks) is passed in as explicit parameters.
-/

namespace Garage

/-- Lowercase hexadecimal digit for a value below 16, as produced by
Python `bytes.hex()` (codepoint 48 is `0`, 97 is `a`). -/
def hexDigitChar (n : Nat) : Char :=
  if n < 10 then Char.ofNat (48 + n) else Char.ofNat (87 + n)

/-- Two-character lowercase hex rendering of one byte, as in `bytes.hex()`. -/
def byteHex (b : Nat) : List Char :=
  [hexDigitChar (b / 16), hexDigitChar (b % 16)]

/-- Python `bytes.hex()`: lowercase hex rendering of a byte string. -/
def bytesHex : List Nat → List Char
  | [] => []
  | b :: bs => byteHex b ++ bytesHex bs

/-- Value of one hex digit, accepting the digits and both letter cases,
as Python `bytes.fromhex` does; `none` on any other character. -/
def hexDigitVal (c : Char) : Option Nat :=
  if 48 ≤ c.toNat ∧ c.toNat ≤ 57 then some (c.toNat - 48)
  else if 97 ≤ c.toNat ∧ c.toNat ≤ 102 then some (c.toNat - 87)
  else if 65 ≤ c.toNat ∧ c.toNat ≤ 70 then some (c.toNat - 55)
  else none

/-- Python `bytes.fromhex`: parses pairs of hex digits, failing (a
`ValueError` in the source) on an odd length or a non-hex character. -/
def bytesFromHex : List Char → Option (List Nat)
  | [] => some []
  | [_] => none
  | c1 :: c2 :: rest =>
    match hexDigitVal c1, hexDigitVal c2, bytesFromHex rest with
    | some hi, some lo, some bs => some ((16 * hi + lo) :: bs)
    | _, _, _ => none

/-- Python `str.split(sep)` for a one-character separator: the list of
maximal separator-free segments; `"".split(c) = [""]`. -/
def splitOnChar (sep : Char) : List Char → List (List Char)
  | [] => [[]]
  | c :: rest =>
    if c = sep then [] :: splitOnChar sep rest
    else
      match splitOnChar sep rest with
      | [] => [[c]]
      | g :: gs => (c :: g) :: gs

/-- The two hash primitives the source calls out to
(`hashlib.pbkdf2_hmac('sha256', pw, salt, 100000)` and
`hashlib.sha256(pw).hexdigest()`), abstracted as deterministic
functions. -/
structure HashFns where
  pbkdf2_hmac_sha256 : String → List Nat → List Nat
  sha256_hexdigest : String → List Char

/-- `hash_password` from src/garage_server.py, with the 32 random salt
bytes and the KDF passed in explicitly: stores `salt.hex() + ':' +
pwd_hash.hex()`. -/
def hash_password (kdf : String → List Nat → List Nat) (salt : List Nat)
    (password : String) : List Char :=
  bytesHex salt ++ ':' :: bytesHex (kdf password salt)

/-- `verify_password` from src/garage_server.py.  The source branches on
`':' not in stored_hash` (the one-segment case of the split), unpacks
`stored_hash.split(':')` into exactly two parts (a `ValueError`, caught
and turned into `False`, when there are more), decodes both parts from
hex (`ValueError` again on failure), recomputes the KDF and compares. -/
def verify_password (H : HashFns) (password : String)
    (stored_hash : List Char) : Bool :=
  match splitOnChar ':' stored_hash with
  | [_] => H.sha256_hexdigest password == stored_hash
  | [salt_hex, pwd_hash_hex] =>
    match bytesFromHex salt_hex, bytesFromHex pwd_hash_hex with
    | some salt, some pwd_hash =>
      H.pbkdf2_hmac_sha256 password salt == pwd_hash
    | _, _ => false
  | _ => false

theorem hexDigitChar_ne_colon {n : Nat} (h : n < 16) : hexDigitChar n ≠ ':' := by
  interval_cases n <;> decide

theorem colon_not_mem_byteHex {b : Nat} (hb : b < 256) : ':' ∉ byteHex b := by
  have h1 : b / 16 < 16 := by omega
  have h2 : b % 16 < 16 := by omega
  simp only [byteHex, List.mem_cons, List.not_mem_nil, or_false]
  rintro (h | h) <;>
    [exact hexDigitChar_ne_colon h1 h.symm; exact hexDigitChar_ne_colon h2 h.symm]

theorem colon_not_mem_bytesHex {bs : List Nat} (h : ∀ b ∈ bs, b < 256) :
    ':' ∉ bytesHex bs := by
  induction bs with
  | nil => simp [bytesHex]
  | cons b bs ih =>
    simp only [bytesHex, List.mem_append]
    rintro (hc | hc)
    · exact colon_not_mem_byteHex (h b (by simp)) hc
    · exact ih (fun x hx => h x (by simp [hx])) hc

theorem splitOnChar_ne_nil (sep : Char) (l : List Char) :
    splitOnChar sep l ≠ [] := by
  cases l with
  | nil => simp [splitOnChar]
  | cons c rest =>
    simp only [splitOnChar]
    split
    · simp
    · split <;> simp

theorem splitOnChar_of_not_mem {sep : Char} {l : List Char} (h : sep ∉ l) :
    splitOnChar sep l = [l] := by
  induction l with
  | nil => rfl
  | cons c rest ih =>
    have hc : c ≠ sep := fun hceq => h (by simp [hceq])
    have hrest : sep ∉ rest := fun hm => h (by simp [hm])
    simp only [splitOnChar, if_neg hc, ih hrest]

theorem splitOnChar_append {sep : Char} {xs ys : List Char} (h : sep ∉ xs) :
    splitOnChar sep (xs ++ sep :: ys) = xs :: splitOnChar sep ys := by
  induction xs with
  | nil => simp [splitOnChar]
  | cons c xs ih =>
    have hc : c ≠ sep := fun hceq => h (by simp [hceq])
    have hxs : sep ∉ xs := fun hm => h (by simp [hm])
    simp only [List.cons_append, splitOnChar, if_neg hc]
    rw [List.append_eq, ih hxs]

theorem hexDigitVal_hexDigitChar {n : Nat} (h : n < 16) :
    hexDigitVal (hexDigitChar n) = some n := by
  interval_cases n <;> decide

theorem bytesFromHex_bytesHex {bs : List Nat} (h : ∀ b ∈ bs, b < 256) :
    bytesFromHex (bytesHex bs) = some bs := by
  induction bs with
  | nil => rfl
  | cons b bs ih =>
    have hb : b < 256 := h b (by simp)
    have hdiv : b / 16 < 16 := by omega
    have hmod : b % 16 < 16 := by omega
    have hrec := ih (fun x hx => h x (by simp [hx]))
    show bytesFromHex (hexDigitChar (b / 16) :: hexDigitChar (b % 16) :: bytesHex bs)
        = some (b :: bs)
    rw [bytesFromHex, hexDigitVal_hexDigitChar hdiv, hexDigitVal_hexDigitChar hmod, hrec]
    show some ((16 * (b / 16) + b % 16) :: bs) = some (b :: bs)
    have hval : 16 * (b / 16) + b % 16 = b := by omega
    rw [hval]

theorem verify_password_two_parts (H : HashFns) (password : String)
    {stored a b : List Char} (hsp : splitOnChar ':' stored = [a, b]) :
    verify_password H password stored =
      (match bytesFromHex a, bytesFromHex b with
       | some salt, some pwd_hash => H.pbkdf2_hmac_sha256 password salt == pwd_hash
       | _, _ => false) := by
  rw [verify_password, hsp]

/-- C3: for every password, verifying it against the credential just
produced by hashing it succeeds: `verify_password p (hash_password p)`
returns `true`, where the credential encodes the fresh 32-byte salt and
the PBKDF2-HMAC-SHA256 key as `salt_hex:key_hex` and verification
recomputes the key from the stored salt and compares. -/
theorem c3_verify_password_roundtrip (H : HashFns) (salt : List Nat) (password : String)
    (hsalt : ∀ b ∈ salt, b < 256) (hlen : salt.length = 32)
    (hkey : ∀ b ∈ H.pbkdf2_hmac_sha256 password salt, b < 256) :
    verify_password H password (hash_password H.pbkdf2_hmac_sha256 salt password) = true := by
  have hsp : splitOnChar ':' (hash_password H.pbkdf2_hmac_sha256 salt password)
      = [bytesHex salt, bytesHex (H.pbkdf2_hmac_sha256 password salt)] := by
    rw [hash_password, splitOnChar_append (colon_not_mem_bytesHex hsalt),
      splitOnChar_of_not_mem (colon_not_mem_bytesHex hkey)]
  rw [verify_password_two_parts H password hsp,
    bytesFromHex_bytesHex hsalt, bytesFromHex_bytesHex hkey]
  exact beq_self_eq_true _

/-- Concrete hash primitives used by witnesses: a stand-in KDF and a
stand-in SHA-256 hexdigest. -/
def hashFnsW : HashFns :=
  { pbkdf2_hmac_sha256 := fun _ _ => [0, 255, 16]
    sha256_hexdigest := fun _ => [] }

theorem c3_verify_password_roundtrip_witness :
    verify_password hashFnsW "pw"
      (hash_password hashFnsW.pbkdf2_hmac_sha256 (List.replicate 32 7) "pw") = true :=
  c3_verify_password_roundtrip hashFnsW (List.replicate 32 7) "pw"
    (by decide) (by decide) (by decide)

/-- C8: `verify_password` never raises (it is a total Boolean function in
this embedding, matching the source's catch of `ValueError` and
`AttributeError`), and it returns `false` on malformed stored
credentials: when the stored string has more than one `:` separator
(so the two-way unpack of `split(':')` fails) and when either side of a
`salt_hex:key_hex` pair is not valid hex. -/
theorem c8_verify_password_malformed (H : HashFns) (password : String) :
    (∀ stored : List Char, 2 < (splitOnChar ':' stored).length →
      verify_password H password stored = false)
    ∧ (∀ stored salt_hex pwd_hash_hex : List Char,
        splitOnChar ':' stored = [salt_hex, pwd_hash_hex] →
        bytesFromHex salt_hex = none ∨ bytesFromHex pwd_hash_hex = none →
        verify_password H password stored = false) := by
  constructor
  · intro stored hlen
    rw [verify_password]
    rcases hsp : splitOnChar ':' stored with _ | ⟨a, _ | ⟨b, _ | ⟨c, rest⟩⟩⟩ <;>
      rw [hsp] at hlen <;> simp_all
  · intro stored salt_hex pwd_hash_hex hsp hbad
    rw [verify_password_two_parts H password hsp]
    rcases hbad with hbad | hbad <;> rw [hbad] <;>
      rcases bytesFromHex salt_hex with _ | s <;> rfl

theorem c8_verify_password_malformed_witness :
    verify_password hashFnsW "pw" [':', ':'] = false
    ∧ verify_password hashFnsW "pw" ['z', 'z', ':', 'a', 'a'] = false :=
  ⟨(c8_verify_password_malformed hashFnsW "pw").1 [':', ':'] (by decide),
   (c8_verify_password_malformed hashFnsW "pw").2 ['z', 'z', ':', 'a', 'a']
     ['z', 'z'] ['a', 'a'] (by decide) (Or.inl (by decide))⟩

structure UserRow where
  id : Nat
  username : String
  password_hash : List Char
  role : String
deriving DecidableEq

structure SessionRow where
  user_id : Nat
  token : String
  expires_at : Int
deriving DecidableEq

structure Db where
  users : List UserRow
  sessions : List SessionRow
deriving DecidableEq

/-- Row shape returned by `verify_session` (`SELECT u.id, u.username, u.role`). -/
structure SessionUser where
  id : Nat
  username : String
  role : String
deriving DecidableEq

/-- `create_session` from src/garage_server.py, with the random
`secrets.token_urlsafe(32)` value passed in: inserts a session row with
`expires_at = now + timedelta(hours=24)` and returns the token. -/
def create_session (user_id : Nat) (token : String) (now : Int) (db : Db) :
    String × Db :=
  (token,
   { db with
     sessions := db.sessions ++
       [{ user_id := user_id, token := token, expires_at := now + 24 * 3600 }] })

/-- Rows of the source's join `sessions JOIN users ON s.user_id = u.id
WHERE s.token = ? AND s.expires_at > ?`, in session-table order. -/
def sessionJoin (token : String) (now : Int) (db : Db) :
    List (SessionRow × UserRow) :=
  db.sessions.filterMap (fun s =>
    if s.token = token ∧ now < s.expires_at then
      (db.users.find? (fun u => u.id == s.user_id)).map (fun u => (s, u))
    else none)

/-- `verify_session` from src/garage_server.py: `None` for a falsy token,
otherwise `fetchone` on the join above, returning the joined user's
id, username and role. -/
def verify_session (token : String) (now : Int) (db : Db) : Option SessionUser :=
  if token = "" then none
  else
    (sessionJoin token now db).head?.map (fun p =>
      { id := p.2.id, username := p.2.username, role := p.2.role })

/-- Database exhibiting the expiry boundary: one session whose
`expires_at` equals the current time. -/
def dbBoundary : Db :=
  { users := [{ id := 1, username := "alice", password_hash := [], role := "admin" }]
    sessions := [{ user_id := 1, token := "tok", expires_at := 0 }] }

/-- C4 counterexample: at `now` exactly equal to `expires_at` the claim
says the token is still outside the `None` cases (the time is not past
`expires_at`, `now > expires_at` fails) so the session's user should be
returned, yet `verify_session` returns `none`, because the SQL filter is
the strict `s.expires_at > ?`. -/
theorem c4_expiry_boundary_counterexample :
    verify_session "tok" 0 dbBoundary = none
    ∧ (∃ s ∈ dbBoundary.sessions, s.token = "tok" ∧ ¬ ((0 : Int) > s.expires_at)) := by
  refine ⟨by decide, ⟨{ user_id := 1, token := "tok", expires_at := 0 }, by decide, by decide⟩⟩

theorem sessionJoin_create (db : Db) (user_id : Nat) (token : String) (now : Int)
    (hfresh : ∀ s ∈ db.sessions, s.token ≠ token) :
    sessionJoin token now (create_session user_id token now db).2
      = ((db.users.find? (fun x => x.id == user_id)).map (fun x =>
          (({ user_id := user_id, token := token,
              expires_at := now + 24 * 3600 } : SessionRow), x))).toList := by
  have hold : (db.sessions.filterMap (fun s =>
      if s.token = token ∧ now < s.expires_at then
        (db.users.find? (fun x => x.id == s.user_id)).map (fun x => (s, x))
      else none)) = [] := by
    rw [List.filterMap_eq_nil_iff]
    intro s hs
    rw [if_neg (fun hc => hfresh s hs hc.1)]
  rw [sessionJoin, create_session]
  show (db.sessions ++ [_]).filterMap _ = _
  rw [List.filterMap_append, hold, List.nil_append, List.filterMap_cons]
  rw [if_pos ⟨rfl, by show now < now + 24 * 3600; omega⟩]
  rcases hfind : db.users.find? (fun x => x.id == user_id) with _ | v <;>
    rw [hfind] <;> rfl

/-- C4 (amended): `verify_session` returns `None` exactly when the token
has no session row or `now ≥ expires_at` (at-or-past expiry, since the
source's SQL condition is the strict `expires_at > now`); and a token
returned by `create_session user_id` validates to that same user
immediately after creation.  The hypotheses state the schema invariants:
every session's user resolves (the `user_id` foreign key) and stored
tokens are non-empty. -/
theorem c4_session_validation (db : Db)
    (hfk : ∀ s ∈ db.sessions, ∃ u ∈ db.users, u.id = s.user_id)
    (hne : ∀ s ∈ db.sessions, s.token ≠ "") :
    (∀ token now, (verify_session token now db = none ↔
        ∀ s ∈ db.sessions, s.token = token → s.expires_at ≤ now))
    ∧ (∀ user_id token now u,
        db.users.find? (fun x => x.id == user_id) = some u →
        (∀ s ∈ db.sessions, s.token ≠ token) → token ≠ "" →
        verify_session token now (create_session user_id token now db).2
          = some { id := u.id, username := u.username, role := u.role }) := by
  constructor
  · intro token now
    by_cases htok : token = ""
    · subst htok
      rw [verify_session, if_pos rfl]
      exact ⟨fun _ s hs heq => absurd heq (hne s hs), fun _ => rfl⟩
    · rw [verify_session, if_neg htok, Option.map_eq_none', List.head?_eq_none_iff,
        sessionJoin, List.filterMap_eq_nil_iff]
      constructor
      · intro hall s hs heq
        have := hall s hs
        by_contra hlt
        rw [if_pos ⟨heq, by omega⟩] at this
        obtain ⟨u, hu, hid⟩ := hfk s hs
        have hsome : (db.users.find? (fun u => u.id == s.user_id)).isSome := by
          rw [List.find?_isSome]
          exact ⟨u, hu, by simp [hid]⟩
        obtain ⟨v, hv⟩ := Option.isSome_iff_exists.mp hsome
        rw [hv] at this
        simp at this
      · intro hall s hs
        rcases Decidable.em (s.token = token ∧ now < s.expires_at) with hc | hc
        · have := hall s hs hc.1
          omega
        · rw [if_neg hc]
  · intro user_id token now u hfind hfresh htok
    rw [verify_session, if_neg htok, sessionJoin_create db user_id token now hfresh, hfind]
    rfl

/-- Database with one user and no sessions, for the C4 witness. -/
def dbW : Db :=
  { users := [{ id := 1, username := "alice", password_hash := [], role := "admin" }]
    sessions := [] }

theorem c4_session_validation_witness :
    verify_session "tok" 5 (create_session 1 "tok" 5 dbW).2
      = some { id := 1, username := "alice", role := "admin" } :=
  (c4_session_validation dbW (by decide) (by decide)).2 1 "tok" 5
    { id := 1, username := "alice", password_hash := [], role := "admin" }
    (by decide) (by decide) (by decide)

/-- The module-global `login_attempts` dict of src/garage_server.py:
identifier to list of POSIX timestamps of failed attempts. -/
abbrev Attempts := List (String × List Int)

def lookupAttempts (m : Attempts) (identifier : String) : Option (List Int) :=
  (m.find? (fun p => p.1 == identifier)).map (fun p => p.2)

/-- Python dict assignment `login_attempts[identifier] = l`. -/
def setAttempts (m : Attempts) (identifier : String) (l : List Int) : Attempts :=
  if m.any (fun p => p.1 == identifier) then
    m.map (fun p => if p.1 == identifier then (identifier, l) else p)
  else m ++ [(identifier, l)]

def LOGIN_ATTEMPT_WINDOW : Int := 300

def MAX_LOGIN_ATTEMPTS : Nat := 5

/-- `check_rate_limit` from src/garage_server.py: if the identifier is
present, drop the timestamps with `now - ts < LOGIN_ATTEMPT_WINDOW`
failing, write the pruned list back into the dict, and refuse when the
remaining count is at least `MAX_LOGIN_ATTEMPTS`.  Returns the updated
dict together with the Boolean the source returns. -/
def check_rate_limit (identifier : String) (now : Int) (m : Attempts) :
    Attempts × Bool :=
  match lookupAttempts m identifier with
  | none => (m, true)
  | some attempts =>
    let pruned := attempts.filter (fun ts => now - ts < LOGIN_ATTEMPT_WINDOW)
    let m1 := setAttempts m identifier pruned
    if MAX_LOGIN_ATTEMPTS ≤ pruned.length then (m1, false) else (m1, true)

/-- `record_login_attempt` from src/garage_server.py: append the current
time to the identifier's attempt list, creating it when absent. -/
def record_login_attempt (identifier : String) (now : Int) (m : Attempts) :
    Attempts :=
  match lookupAttempts m identifier with
  | none => m ++ [(identifier, [now])]
  | some attempts => setAttempts m identifier (attempts ++ [now])

/-- Attempt timestamps still inside the trailing window, after pruning. -/
def prunedAttempts (m : Attempts) (identifier : String) (now : Int) : List Int :=
  ((lookupAttempts m identifier).getD []).filter
    (fun ts => now - ts < LOGIN_ATTEMPT_WINDOW)

theorem lookupAttempts_set_self (m : Attempts) (identifier : String) (l : List Int) :
    lookupAttempts (setAttempts m identifier l) identifier = some l := by
  induction m with
  | nil => simp [setAttempts, lookupAttempts]
  | cons a m ih =>
    rcases hm : a.1 == identifier with _ | _
    · by_cases hany : m.any (fun p => p.1 == identifier)
      · have : (a :: m).any (fun p => p.1 == identifier) = true := by
          simp only [List.any_cons, hm, Bool.false_or, hany]
        rw [setAttempts, if_pos this]
        have hset : setAttempts m identifier l
            = m.map (fun p => if p.1 == identifier then (identifier, l) else p) := by
          rw [setAttempts, if_pos hany]
        rw [List.map_cons, if_neg (by simp [hm])]
        show lookupAttempts (a :: m.map _) identifier = some l
        rw [lookupAttempts, List.find?_cons_of_neg _ (by simp [hm])]
        rw [← hset, ← lookupAttempts, ih]
      · have : (a :: m).any (fun p => p.1 == identifier) = false := by
          simp only [List.any_cons, hm, Bool.false_or]
          exact Bool.not_eq_true _ ▸ (by simpa using hany)
        rw [setAttempts, if_neg (by simp [this])]
        have hset : setAttempts m identifier l = m ++ [(identifier, l)] := by
          rw [setAttempts, if_neg (by simpa using hany)]
        show lookupAttempts (a :: (m ++ [(identifier, l)])) identifier = some l
        rw [lookupAttempts, List.find?_cons_of_neg _ (by simp [hm])]
        rw [← hset, ← lookupAttempts, ih]
    · have : (a :: m).any (fun p => p.1 == identifier) = true := by
        simp only [List.any_cons, hm, Bool.true_or]
      rw [setAttempts, if_pos this, List.map_cons, if_pos hm, lookupAttempts,
        List.find?_cons_of_pos _ (by simp)]
      rfl

theorem find?_map_other {m : Attempts} {identifier id2 : String}
    (l : List Int) (h : id2 ≠ identifier) :
    (m.map (fun p => if p.1 == identifier then (identifier, l) else p)).find?
        (fun p => p.1 == id2)
      = m.find? (fun p => p.1 == id2) := by
  induction m with
  | nil => rfl
  | cons a m ih =>
    rw [List.map_cons]
    rcases hid : a.1 == identifier with _ | _
    · rw [if_neg (by simp)]
      rcases ha : a.1 == id2 with _ | _
      · rw [List.find?_cons_of_neg _ (by simp [ha]),
          List.find?_cons_of_neg _ (by simp [ha]), ih]
      · rw [List.find?_cons_of_pos _ (by simpa using ha),
          List.find?_cons_of_pos _ (by simpa using ha)]
    · rw [if_pos rfl]
      have ha1 : a.1 = identifier := by simpa using hid
      have hne : (a.1 == id2) = false := by simp [ha1, Ne.symm h]
      rw [List.find?_cons_of_neg _ (by simp [Ne.symm h]),
        List.find?_cons_of_neg _ (by simp [hne]), ih]

theorem lookupAttempts_set_other (m : Attempts) (identifier : String)
    (l : List Int) (id2 : String) (h : id2 ≠ identifier) :
    lookupAttempts (setAttempts m identifier l) id2 = lookupAttempts m id2 := by
  rw [setAttempts]
  split
  · rw [lookupAttempts, lookupAttempts, find?_map_other l h]
  · rw [lookupAttempts, lookupAttempts, List.find?_append]
    have hsingle : List.find? (fun p => p.1 == id2) [(identifier, l)] = none := by
      simp [Ne.symm h]
    rw [hsingle, Option.or_none]

theorem lookupAttempts_record_self (m : Attempts) (identifier : String) (now : Int) :
    lookupAttempts (record_login_attempt identifier now m) identifier
      = some ((lookupAttempts m identifier).getD [] ++ [now]) := by
  rw [record_login_attempt]
  rcases hl : lookupAttempts m identifier with _ | l
  · rw [lookupAttempts, List.find?_append]
    have hnone : m.find? (fun p => p.1 == identifier) = none := by
      rw [lookupAttempts] at hl
      rcases hf : m.find? (fun p => p.1 == identifier) with _ | v
      · exact hf
      · rw [hf] at hl
        simp at hl
    rw [hnone, Option.none_or, List.find?_cons_of_pos _ (by simp)]
    rfl
  · rw [lookupAttempts_set_self]
    rfl

theorem check_rate_limit_of_none {m : Attempts} {identifier : String} (now : Int)
    (hl : lookupAttempts m identifier = none) :
    check_rate_limit identifier now m = (m, true) := by
  rw [check_rate_limit, hl]

theorem check_rate_limit_of_some {m : Attempts} {identifier : String} (now : Int)
    {attempts : List Int} (hl : lookupAttempts m identifier = some attempts) :
    check_rate_limit identifier now m =
      if MAX_LOGIN_ATTEMPTS ≤
          (attempts.filter (fun ts => now - ts < LOGIN_ATTEMPT_WINDOW)).length then
        (setAttempts m identifier
          (attempts.filter (fun ts => now - ts < LOGIN_ATTEMPT_WINDOW)), false)
      else
        (setAttempts m identifier
          (attempts.filter (fun ts => now - ts < LOGIN_ATTEMPT_WINDOW)), true) := by
  rw [check_rate_limit, hl]

/-- The state of the limiter after `n` failed attempts for `identifier`
are recorded at time `t`, starting from `mm`. -/
def recordRepeated (identifier : String) (t : Int) (mm : Attempts) : Nat → Attempts
  | 0 => mm
  | n + 1 => record_login_attempt identifier t (recordRepeated identifier t mm n)

theorem lookupAttempts_recordRepeated (identifier : String) (t : Int)
    (mm : Attempts) (hmm : lookupAttempts mm identifier = none) :
    ∀ n : Nat, 0 < n →
      lookupAttempts (recordRepeated identifier t mm n) identifier
        = some (List.replicate n t) := by
  intro n hn
  induction n with
  | zero => omega
  | succ k ih =>
    rcases Nat.eq_zero_or_pos k with hk | hk
    · subst hk
      show lookupAttempts (record_login_attempt identifier t mm) identifier = _
      rw [lookupAttempts_record_self, hmm]
      rfl
    · show lookupAttempts (record_login_attempt identifier t _) identifier = _
      rw [lookupAttempts_record_self, ih hk, Option.getD_some, ← List.replicate_succ']

/-- C5: `check_rate_limit` prunes the identifier's recorded timestamps to
the trailing five-minute window (writing the pruned list back) and
returns `false` exactly when at least five attempts remain inside the
window; consequently, with failure times recorded by
`record_login_attempt`, the first four failures leave the check passing,
a fifth failure inside the window makes it fail, and once the window
has elapsed since the failures it passes again. -/
theorem c5_check_rate_limit_window (identifier : String) (now : Int) (m : Attempts) :
    ((check_rate_limit identifier now m).2 = true
      ↔ (prunedAttempts m identifier now).length < MAX_LOGIN_ATTEMPTS)
    ∧ (lookupAttempts (check_rate_limit identifier now m).1 identifier
        = (lookupAttempts m identifier).map
            (fun l => l.filter (fun ts => now - ts < LOGIN_ATTEMPT_WINDOW)))
    ∧ (∀ t : Int, ∀ mm : Attempts, lookupAttempts mm identifier = none →
        (check_rate_limit identifier t (recordRepeated identifier t mm 4)).2 = true
        ∧ (check_rate_limit identifier t (recordRepeated identifier t mm 5)).2 = false
        ∧ ∀ later : Int, LOGIN_ATTEMPT_WINDOW ≤ later - t →
            (check_rate_limit identifier later (recordRepeated identifier t mm 5)).2
              = true) := by
  refine ⟨?_, ?_, ?_⟩
  · rcases hl : lookupAttempts m identifier with _ | attempts
    · rw [check_rate_limit_of_none now hl]
      simp [prunedAttempts, hl, MAX_LOGIN_ATTEMPTS]
    · rw [check_rate_limit_of_some now hl, prunedAttempts, hl, Option.getD_some]
      split
      · next hlen =>
          exact ⟨fun hx => absurd hx Bool.false_ne_true, fun hlt => absurd hlt (by omega)⟩
      · next hlen => exact ⟨fun _ => by omega, fun _ => rfl⟩
  · rcases hl : lookupAttempts m identifier with _ | attempts
    · rw [check_rate_limit_of_none now hl, Option.map_none']
      exact hl
    · rw [check_rate_limit_of_some now hl, Option.map_some']
      split <;> exact lookupAttempts_set_self _ _ _
  · intro t mm hmm
    have h4 := lookupAttempts_recordRepeated identifier t mm hmm 4 (by omega)
    have h5 := lookupAttempts_recordRepeated identifier t mm hmm 5 (by omega)
    have hkeep : ∀ n : Nat, (List.replicate n t).filter
        (fun ts => t - ts < LOGIN_ATTEMPT_WINDOW) = List.replicate n t := by
      intro n
      rw [List.filter_eq_self]
      intro a ha
      rw [List.eq_of_mem_replicate ha]
      simp [LOGIN_ATTEMPT_WINDOW]
    refine ⟨?_, ?_, ?_⟩
    · rw [check_rate_limit_of_some t h4, hkeep 4,
        if_neg (by simp [MAX_LOGIN_ATTEMPTS])]
    · rw [check_rate_limit_of_some t h5, hkeep 5,
        if_pos (by simp [MAX_LOGIN_ATTEMPTS])]
    · intro later hlater
      have hdrop : (List.replicate 5 t).filter
          (fun ts => later - ts < LOGIN_ATTEMPT_WINDOW) = [] := by
        rw [List.filter_eq_nil_iff]
        intro a ha
        rw [List.eq_of_mem_replicate ha]
        simp only [decide_eq_true_eq, not_lt]
        omega
      rw [check_rate_limit_of_some later h5, hdrop,
        if_neg (by simp [MAX_LOGIN_ATTEMPTS])]

theorem c5_check_rate_limit_window_witness :
    (check_rate_limit "admin_bob" 0 (recordRepeated "admin_bob" 0 [] 5)).2 = false :=
  ((c5_check_rate_limit_window "admin_bob" 0 []).2.2 0 [] (by decide)).2.1

theorem lookupAttempts_check_self (identifier : String) (now : Int) (m : Attempts) :
    lookupAttempts (check_rate_limit identifier now m).1 identifier
      = (lookupAttempts m identifier).map
          (fun l => l.filter (fun ts => now - ts < LOGIN_ATTEMPT_WINDOW)) := by
  rcases hl : lookupAttempts m identifier with _ | attempts
  · rw [check_rate_limit_of_none now hl, Option.map_none']
    exact hl
  · rw [check_rate_limit_of_some now hl, Option.map_some']
    split <;> exact lookupAttempts_set_self _ _ _

theorem lookupAttempts_check_other (identifier : String) (now : Int) (m : Attempts)
    (id2 : String) (h : id2 ≠ identifier) :
    lookupAttempts (check_rate_limit identifier now m).1 id2
      = lookupAttempts m id2 := by
  rcases hl : lookupAttempts m identifier with _ | attempts
  · rw [check_rate_limit_of_none now hl]
  · rw [check_rate_limit_of_some now hl]
    split <;> exact lookupAttempts_set_other _ _ _ _ h

/-- Python `str.strip()`: remove leading and trailing whitespace.
Implemented structurally on the character list so it evaluates by
kernel reduction (`String.trim` is defined by well-founded recursion
and would not). -/
def pyStrip (s : String) : String :=
  ⟨((s.data.dropWhile Char.isWhitespace).reverse.dropWhile Char.isWhitespace).reverse⟩

/-- Reply of the admin login endpoint: the JSON body's message or token
together with the HTTP status the source sends (400, 429, 200, 401). -/
inductive LoginReply
  | badRequest (message : String)
  | tooMany (message : String)
  | ok (token : String)
  | unauthorized (message : String)
deriving DecidableEq

/-- `handle_login` from src/garage_server.py: strip the username, refuse
blank fields, consult the rate limiter (whose pruning side effect is
kept either way), look the user up by username, verify the password,
and either create a session or record a failed attempt and answer the
generic `Invalid credentials`.  The fresh session token is passed in
for `secrets.token_urlsafe(32)`.  Returns the reply, the database and
the `login_attempts` state. -/
def handle_login (H : HashFns) (username password : String) (now : Int)
    (db : Db) (m : Attempts) (newToken : String) :
    LoginReply × Db × Attempts :=
  if pyStrip username = "" ∨ password = "" then
    (LoginReply.badRequest "Username and password are required", db, m)
  else if (check_rate_limit ("admin_" ++ pyStrip username) now m).2 = false then
    (LoginReply.tooMany "Too many login attempts. Please try again later.", db,
     (check_rate_limit ("admin_" ++ pyStrip username) now m).1)
  else
    match db.users.find? (fun u => u.username == pyStrip username) with
    | some u =>
      if verify_password H password u.password_hash then
        (LoginReply.ok newToken, (create_session u.id newToken now db).2,
         (check_rate_limit ("admin_" ++ pyStrip username) now m).1)
      else
        (LoginReply.unauthorized "Invalid credentials", db,
         record_login_attempt ("admin_" ++ pyStrip username) now
           (check_rate_limit ("admin_" ++ pyStrip username) now m).1)
    | none =>
      (LoginReply.unauthorized "Invalid credentials", db,
       record_login_attempt ("admin_" ++ pyStrip username) now
         (check_rate_limit ("admin_" ++ pyStrip username) now m).1)

/-- C7 (amended, the part that holds): `handle_login` in
src/garage_server.py answers the identical generic
`Invalid credentials` reply (status 401) both for an existing username
with a wrong password and for a username that matches no user, so that
endpoint does not reveal account existence.  (The claim as frozen also
covers the `login` of src/app/app1.py, which does reveal it; see the
counterexample.) -/
theorem c7_handle_login_no_enumeration (H : HashFns) (u1 u2 p1 p2 : String)
    (now : Int) (db : Db) (m : Attempts) (tok1 tok2 : String) (usr : UserRow)
    (h1ne : pyStrip u1 ≠ "") (hp1 : p1 ≠ "")
    (h2ne : pyStrip u2 ≠ "") (hp2 : p2 ≠ "")
    (hrl1 : (check_rate_limit ("admin_" ++ pyStrip u1) now m).2 = true)
    (hrl2 : (check_rate_limit ("admin_" ++ pyStrip u2) now m).2 = true)
    (hfound : db.users.find? (fun x => x.username == pyStrip u1) = some usr)
    (hbad : verify_password H p1 usr.password_hash = false)
    (hmiss : db.users.find? (fun x => x.username == pyStrip u2) = none) :
    (handle_login H u1 p1 now db m tok1).1 = (handle_login H u2 p2 now db m tok2).1
    ∧ (handle_login H u1 p1 now db m tok1).1
        = LoginReply.unauthorized "Invalid credentials" := by
  have e1 : (handle_login H u1 p1 now db m tok1).1
      = LoginReply.unauthorized "Invalid credentials" := by
    simp [handle_login, hfound, hbad, h1ne, hp1, hrl1]
  have e2 : (handle_login H u2 p2 now db m tok2).1
      = LoginReply.unauthorized "Invalid credentials" := by
    simp [handle_login, hmiss, h2ne, hp2, hrl2]
  exact ⟨e1.trans e2.symm, e1⟩

/-- User row whose stored credential verifies against `hashFnsW` for any
password (the stand-in KDF ignores its arguments): `00ff10:00ff10`. -/
def userRowW : UserRow :=
  { id := 1, username := "bob"
    password_hash := ['0', '0', 'f', 'f', '1', '0', ':', '0', '0', 'f', 'f', '1', '0']
    role := "admin" }

/-- User row with a credential nothing verifies against (bad hex). -/
def userRowBad : UserRow :=
  { id := 2, username := "eve", password_hash := ['z', ':', 'z'], role := "staff" }

theorem c7_handle_login_no_enumeration_witness :
    (handle_login hashFnsW "eve" "x" 0 { users := [userRowBad], sessions := [] } [] "t1").1
      = (handle_login hashFnsW "carol" "x" 0 { users := [userRowBad], sessions := [] } [] "t2").1 :=
  (c7_handle_login_no_enumeration hashFnsW "eve" "carol" "x" "x" 0
    { users := [userRowBad], sessions := [] } [] "t1" "t2" userRowBad
    (by decide) (by decide) (by decide) (by decide)
    (by decide) (by decide) (by decide) (by decide) (by decide)).1

/-- C9 (amended): a successful login records no new failed attempt and
leaves every within-window attempt timestamp for the identifier in
place; the only change to the rate-limiter state is the pruning of
timestamps that have already left the window (the write-back side
effect of `check_rate_limit`), and the lists of all other identifiers
are untouched. -/
theorem c9_success_keeps_window_attempts (H : HashFns) (username password : String)
    (now : Int) (db : Db) (m : Attempts) (newToken tok : String)
    (hok : (handle_login H username password now db m newToken).1 = LoginReply.ok tok) :
    (lookupAttempts (handle_login H username password now db m newToken).2.2
        ("admin_" ++ pyStrip username)
      = (lookupAttempts m ("admin_" ++ pyStrip username)).map
          (fun l => l.filter (fun ts => now - ts < LOGIN_ATTEMPT_WINDOW)))
    ∧ (∀ id2, id2 ≠ "admin_" ++ pyStrip username →
        lookupAttempts (handle_login H username password now db m newToken).2.2 id2
          = lookupAttempts m id2) := by
  by_cases hcond : pyStrip username = "" ∨ password = ""
  · rw [handle_login, if_pos hcond] at hok
    exact absurd hok (by simp)
  by_cases hrl : (check_rate_limit ("admin_" ++ pyStrip username) now m).2 = false
  · rw [handle_login, if_neg hcond, if_pos hrl] at hok
    exact absurd hok (by simp)
  rcases hf : db.users.find? (fun u => u.username == pyStrip username) with _ | u
  · have : (handle_login H username password now db m newToken).1
        = LoginReply.unauthorized "Invalid credentials" := by
      simp [handle_login, if_neg hcond, hrl, hf]
    rw [this] at hok
    exact absurd hok (by simp)
  by_cases hv : verify_password H password u.password_hash = true
  · have hstate : (handle_login H username password now db m newToken).2.2
        = (check_rate_limit ("admin_" ++ pyStrip username) now m).1 := by
      simp [handle_login, if_neg hcond, hrl, hf, hv]
    rw [hstate]
    exact ⟨lookupAttempts_check_self _ _ _,
      fun id2 hne => lookupAttempts_check_other _ _ _ _ hne⟩
  · have : (handle_login H username password now db m newToken).1
        = LoginReply.unauthorized "Invalid credentials" := by
      simp [handle_login, if_neg hcond, hrl, hf, hv]
    rw [this] at hok
    exact absurd hok (by simp)

/-- Rate-limiter state for the C9 counterexample: one failed attempt,
recorded exactly one window-length before the login. -/
def attemptsStale : Attempts := [("admin_bob", [0])]

/-- C9 counterexample: the claim says a successful login leaves the
identifier's attempt-timestamp list unchanged, but the login path calls
`check_rate_limit`, which writes the pruned list back; with one
timestamp exactly at the window edge the successful login changes the
stored list from `[0]` to `[]`. -/
theorem c9_success_changes_attempt_list_counterexample :
    (handle_login hashFnsW "bob" "x" 300
        { users := [userRowW], sessions := [] } attemptsStale "tok").1
      = LoginReply.ok "tok"
    ∧ lookupAttempts (handle_login hashFnsW "bob" "x" 300
        { users := [userRowW], sessions := [] } attemptsStale "tok").2.2 "admin_bob"
      = some []
    ∧ lookupAttempts attemptsStale "admin_bob" = some [0] := by
  refine ⟨by decide, by decide, by decide⟩

theorem c9_success_keeps_window_attempts_witness :
    lookupAttempts (handle_login hashFnsW "bob" "x" 300
        { users := [userRowW], sessions := [] } attemptsStale "tok").2.2 "other"
      = lookupAttempts attemptsStale "other" :=
  (c9_success_keeps_window_attempts hashFnsW "bob" "x" 300
    { users := [userRowW], sessions := [] } attemptsStale "tok" "tok"
    (by decide)).2 "other" (by decide)

/-- Modelled from the spec: src/ stores a `role` on every user and
`verify_session` returns it, but no `authorize`/role-enforcement code
exists anywhere in src/ (no handler compares roles).  Following spec
section 4.4, the fixed total order ranks `admin` above `staff` and
every unknown role below all known roles. -/
def roleRank (role : String) : Nat :=
  if role = "admin" then 2 else if role = "staff" then 1 else 0

inductive AuthzDecision
  | authorized
  | forbidden
deriving DecidableEq

/-- Modelled from the spec: `authorize(user, required_role)` fails with
`Forbidden` exactly when the user's role does not meet or exceed the
required role under the order of `roleRank`. -/
def authorize (user_role required_role : String) : AuthzDecision :=
  if roleRank required_role ≤ roleRank user_role then AuthzDecision.authorized
  else AuthzDecision.forbidden

/-- Modelled from the spec: delete operations require the `admin` role. -/
def delete_required_role : String := "admin"

/-- C2: `authorize` fails with `Forbidden` exactly when the user's role
does not meet or exceed the required role under the fixed total order
`admin > staff` with unknown roles below all known roles; a delete
(which requires `admin`) succeeds exactly for a role meeting or
exceeding `admin`; a staff delete is `Forbidden` while `admin` meets a
`staff` requirement. -/
theorem c2_authorize_role_order (user_role required_role : String) :
    (authorize user_role required_role = AuthzDecision.forbidden
      ↔ roleRank user_role < roleRank required_role)
    ∧ (authorize user_role delete_required_role = AuthzDecision.authorized
      ↔ roleRank "admin" ≤ roleRank user_role)
    ∧ authorize "staff" delete_required_role = AuthzDecision.forbidden
    ∧ authorize "admin" "staff" = AuthzDecision.authorized
    ∧ (user_role ≠ "admin" → user_role ≠ "staff" →
        roleRank user_role < roleRank "staff") := by
  refine ⟨?_, ?_, by decide, by decide, ?_⟩
  · rw [authorize]
    split
    · next hle =>
        exact ⟨fun hx => absurd hx (by simp), fun hlt => absurd hle (by omega)⟩
    · next hle => exact ⟨fun _ => by omega, fun _ => rfl⟩
  · rw [authorize, delete_required_role]
    split
    · next hle => exact ⟨fun _ => hle, fun _ => rfl⟩
    · next hle =>
        exact ⟨fun hx => absurd hx (by simp), fun hge => absurd hge hle⟩
  · intro h1 h2
    rw [roleRank, if_neg h1, if_neg h2]
    decide

theorem c2_authorize_role_order_witness :
    authorize "staff" delete_required_role = AuthzDecision.forbidden
    ∧ roleRank "intern" < roleRank "staff" :=
  ⟨(c2_authorize_role_order "staff" "admin").2.2.1,
   (c2_authorize_role_order "intern" "staff").2.2.2.2 (by decide) (by decide)⟩

/-- Customer row of the `customers` table in src/garage_server.py. -/
structure Customer where
  id : Nat
  name : String
  email : String
  phone : String
  address : String
deriving DecidableEq

/-- Domain state touched by the customer CRUD handlers. -/
structure GarageState where
  customers : List Customer
deriving DecidableEq

/-- `handle_delete_customer` from src/garage_server.py (reached from
`do_DELETE` on `/api/customers/<id>`).  The `token` parameter models the
request's Authorization header: the source handler never reads any
header, calls neither `verify_session` (which no handler in the file
calls) nor any role check, and unconditionally executes
`DELETE FROM customers WHERE id = ?` and replies `{'success': True}`. -/
def handle_delete_customer (token : Option String) (customer_id : Nat)
    (st : GarageState) : Bool × GarageState :=
  (true, { st with customers := st.customers.filter (fun c => ¬ c.id = customer_id) })

/-- `handle_add_customer` from src/garage_server.py (reached from
`do_POST` on `/api/customers`): inserts the row and replies success,
again without reading the Authorization header; the fresh
autoincrement id is passed in as `new_id`. -/
def handle_add_customer (token : Option String) (new_id : Nat)
    (name email phone address : String) (st : GarageState) : Bool × GarageState :=
  (true,
   { st with customers := st.customers ++
      [{ id := new_id, name := name, email := email, phone := phone,
         address := address }] })

/-- C1 is violated by the code (a code bug relative to the spec's
mandate): the customer CRUD handlers are independent of the presented
token — deleting and adding happen for any Authorization header,
including none at all — and concretely, with no session anywhere in the
system, `DELETE /api/customers/1` removes the row and reports success,
and `POST /api/customers` inserts a row, with no authentication error. -/
theorem c1_crud_handlers_skip_authentication :
    (∀ t1 t2 : Option String, ∀ cid new_id : Nat, ∀ nm em ph ad : String,
      ∀ st : GarageState,
        handle_delete_customer t1 cid st = handle_delete_customer t2 cid st
        ∧ handle_add_customer t1 new_id nm em ph ad st
            = handle_add_customer t2 new_id nm em ph ad st)
    ∧ (handle_delete_customer none 1
        { customers := [{ id := 1, name := "bob", email := "b@x.com",
                          phone := "5", address := "" }] }).1 = true
    ∧ (handle_delete_customer none 1
        { customers := [{ id := 1, name := "bob", email := "b@x.com",
                          phone := "5", address := "" }] }).2.customers = []
    ∧ (handle_add_customer none 1 "bob" "b@x.com" "5" ""
        { customers := [] }).2.customers ≠ [] :=
  ⟨fun _ _ _ _ _ _ _ _ _ => ⟨rfl, rfl⟩, rfl, by decide, by decide⟩

/-- Python `str.lower()`, structurally on the character list. -/
def pyLower (s : String) : String :=
  ⟨s.data.map Char.toLower⟩

/-- User row of src/app/app1.py (the Flask variant): the columns the
login flow reads and writes. -/
structure AppUser where
  id : Nat
  username : String
  password_hash : String
  is_active : Bool
  failed_login_attempts : Nat
  account_locked_until : Option Int
  last_login : Option Int
deriving DecidableEq

/-- JSON reply of app1's login endpoint: HTTP status, `success` flag
and `message`. -/
structure AppReply where
  status : Nat
  success : Bool
  message : String
deriving DecidableEq

/-- `User.is_account_locked` from src/app/app1.py: locked while
`account_locked_until` is set and still in the future. -/
def is_account_locked (u : AppUser) (now : Int) : Bool :=
  match u.account_locked_until with
  | some t => decide (t > now)
  | none => false

/-- `login` from src/app/app1.py, with `bcrypt.check_password_hash`
passed in as `chk` (stored hash first, candidate password second).
Order of checks as in the source: missing fields, user lookup by
stripped lowercased username, account lock, account active, password;
on a wrong password the counter is incremented and the account is
locked for 30 minutes once the counter reaches 5; on success the
counter and lock are cleared.  Returns the reply and the updated users
table. -/
def app1_login (chk : String → String → Bool) (username password : String)
    (now : Int) (users : List AppUser) : AppReply × List AppUser :=
  if username = "" ∨ password = "" then
    ({ status := 400, success := false,
       message := "Username and password are required" }, users)
  else
    match users.find? (fun u => u.username == pyLower (pyStrip username)) with
    | none =>
      ({ status := 401, success := false,
         message := "Invalid username or password" }, users)
    | some user =>
      if is_account_locked user now then
        ({ status := 403, success := false,
           message := "Account is locked due to too many failed login attempts. Please try again in "
             ++ toString ((user.account_locked_until.getD 0 - now) / 60)
             ++ " minutes." }, users)
      else if user.is_active = false then
        ({ status := 403, success := false,
           message := "Account is deactivated. Please contact administrator." }, users)
      else if chk user.password_hash password then
        ({ status := 200, success := true, message := "Login successful" },
         users.map (fun x => if x.id == user.id then
           { x with failed_login_attempts := 0, account_locked_until := none,
                    last_login := some now } else x))
      else if 5 ≤ user.failed_login_attempts + 1 then
        ({ status := 403, success := false,
           message := "Account locked due to too many failed login attempts. Please try again in 30 minutes." },
         users.map (fun x => if x.id == user.id then
           { x with failed_login_attempts := user.failed_login_attempts + 1,
                    account_locked_until := some (now + 30 * 60) } else x))
      else
        ({ status := 401, success := false,
           message := "Invalid username or password. "
             ++ toString (5 - (user.failed_login_attempts + 1))
             ++ " attempts remaining." },
         users.map (fun x => if x.id == user.id then
           { x with failed_login_attempts := user.failed_login_attempts + 1 } else x))

theorem app1_update_field (users : List AppUser) (u : AppUser)
    (g : AppUser → AppUser) :
    ∀ x ∈ users.map (fun x => if x.id == u.id then g x else x),
      x.id = u.id → ∃ y ∈ users, y.id = u.id ∧ x = g y := by
  intro x hx hid
  rcases List.mem_map.mp hx with ⟨y, hy, hxy⟩
  by_cases hyid : (y.id == u.id) = true
  · rw [if_pos hyid] at hxy
    exact ⟨y, hy, by simpa using hyid, hxy.symm⟩
  · rw [if_neg hyid] at hxy
    have : y.id = u.id := by rw [hxy]; exact hid
    exact absurd (beq_iff_eq.mpr this) hyid

/-- C6 counterexample: the claim quantifies over every user, but a
deactivated user whose lock has elapsed still cannot log in with the
correct password — the source rejects with the deactivated message
(status 403) instead of succeeding.  Here the checker accepts any
password, the lock `some 10` has elapsed at `now = 20`, yet login does
not succeed. -/
theorem c6_inactive_user_counterexample :
    is_account_locked
        { id := 1, username := "bob", password_hash := "h", is_active := false,
          failed_login_attempts := 5, account_locked_until := some 10,
          last_login := none } 20 = false
    ∧ (app1_login (fun _ _ => true) "bob" "pw" 20
        [{ id := 1, username := "bob", password_hash := "h", is_active := false,
           failed_login_attempts := 5, account_locked_until := some 10,
           last_login := none }]).1
      = { status := 403, success := false,
          message := "Account is deactivated. Please contact administrator." } := by
  exact ⟨by decide, by decide⟩

/-- C6 (amended, adding that the account is active for the post-unlock
login): on the failed login that takes `failed_login_attempts` to 5,
`account_locked_until` is set 30 minutes into the future; while
`account_locked_until` lies in the future every login answers the
locked 403 outcome — distinct from the 401 invalid-credentials
outcome — without touching the table, even when the password is
correct; and once the lock has elapsed, a login of an active user with
the correct password succeeds, resets `failed_login_attempts` to 0 and
clears `account_locked_until`. -/
theorem c6_account_lockout (chk : String → String → Bool)
    (username password : String) (now : Int) (users : List AppUser) (u : AppUser)
    (hfind : users.find? (fun x => x.username == pyLower (pyStrip username)) = some u)
    (hu : username ≠ "") (hp : password ≠ "") :
    (is_account_locked u now = false → u.is_active = true →
      chk u.password_hash password = false →
      4 ≤ u.failed_login_attempts →
      (app1_login chk username password now users).1.status = 403
      ∧ (app1_login chk username password now users).1.message
          = "Account locked due to too many failed login attempts. Please try again in 30 minutes."
      ∧ (∀ x ∈ (app1_login chk username password now users).2, x.id = u.id →
          x.account_locked_until = some (now + 30 * 60)
          ∧ x.failed_login_attempts = u.failed_login_attempts + 1))
    ∧ (∀ T, u.account_locked_until = some T → now < T →
        (app1_login chk username password now users).1.status = 403
        ∧ (app1_login chk username password now users).1.status ≠ 401
        ∧ (app1_login chk username password now users).1.message
            = "Account is locked due to too many failed login attempts. Please try again in "
              ++ toString ((T - now) / 60) ++ " minutes."
        ∧ (app1_login chk username password now users).2 = users)
    ∧ (∀ T, u.account_locked_until = some T → T ≤ now →
        u.is_active = true → chk u.password_hash password = true →
        (app1_login chk username password now users).1
          = { status := 200, success := true, message := "Login successful" }
        ∧ (∀ x ∈ (app1_login chk username password now users).2, x.id = u.id →
            x.failed_login_attempts = 0 ∧ x.account_locked_until = none)) := by
  refine ⟨?_, ?_, ?_⟩
  · intro hnl hact hbad hfa
    have h5 : 5 ≤ u.failed_login_attempts + 1 := by omega
    have heq : app1_login chk username password now users
        = ({ status := 403, success := false,
             message := "Account locked due to too many failed login attempts. Please try again in 30 minutes." },
           users.map (fun x => if x.id == u.id then
             { x with failed_login_attempts := u.failed_login_attempts + 1,
                      account_locked_until := some (now + 30 * 60) } else x)) := by
      simp [app1_login, hfind, hu, hp, hnl, hact, hbad, h5]
    rw [heq]
    refine ⟨rfl, rfl, ?_⟩
    intro x hx hid
    rcases app1_update_field users u
        (fun x => { x with failed_login_attempts := u.failed_login_attempts + 1,
                           account_locked_until := some (now + 30 * 60) })
        x hx hid with ⟨y, hy, hyid, hxy⟩
    rw [hxy]
    exact ⟨rfl, rfl⟩
  · intro T hT hnow
    have hl : is_account_locked u now = true := by
      rw [is_account_locked, hT]
      simpa using hnow
    have heq : app1_login chk username password now users
        = ({ status := 403, success := false,
             message := "Account is locked due to too many failed login attempts. Please try again in "
               ++ toString ((u.account_locked_until.getD 0 - now) / 60)
               ++ " minutes." }, users) := by
      simp [app1_login, hfind, hu, hp, hl]
    rw [heq, hT]
    exact ⟨rfl, by show (403 : Nat) ≠ 401; decide, rfl, rfl⟩
  · intro T hT hnow hact hok
    have hl : is_account_locked u now = false := by
      rw [is_account_locked, hT]
      simpa using not_lt.mpr hnow
    have heq : app1_login chk username password now users
        = ({ status := 200, success := true, message := "Login successful" },
           users.map (fun x => if x.id == u.id then
             { x with failed_login_attempts := 0, account_locked_until := none,
                      last_login := some now } else x)) := by
      simp [app1_login, hfind, hu, hp, hl, hact, hok]
    rw [heq]
    refine ⟨rfl, ?_⟩
    intro x hx hid
    rcases app1_update_field users u
        (fun x => { x with failed_login_attempts := 0, account_locked_until := none,
                           last_login := some now })
        x hx hid with ⟨y, hy, hyid, hxy⟩
    rw [hxy]
    exact ⟨rfl, rfl⟩

/-- Active staff user of the app1 witness scenarios. -/
def appUserW : AppUser :=
  { id := 1, username := "bob", password_hash := "h", is_active := true,
    failed_login_attempts := 4, account_locked_until := some 50,
    last_login := none }

theorem c6_account_lockout_witness :
    (app1_login (fun _ _ => true) "bob" "pw" 60 [appUserW]).1
      = { status := 200, success := true, message := "Login successful" } :=
  ((c6_account_lockout (fun _ _ => true) "bob" "pw" 60 [appUserW] appUserW
      (by decide) (by decide) (by decide)).2.2 50
      (by decide) (by decide) (by decide) (by decide)).1

/-- C7 counterexample: app1's `login` (also named by the claim) does
reveal whether the username exists — an existing user with a wrong
password gets `Invalid username or password. 4 attempts remaining.`
while an unknown username gets the bare
`Invalid username or password`, so the two failure messages differ. -/
theorem c7_app1_login_enumeration_counterexample :
    (app1_login (fun _ _ => false) "bob" "x" 0
        [{ id := 1, username := "bob", password_hash := "h", is_active := true,
           failed_login_attempts := 0, account_locked_until := none,
           last_login := none }]).1.message
      ≠ (app1_login (fun _ _ => false) "carol" "x" 0
        [{ id := 1, username := "bob", password_hash := "h", is_active := true,
           failed_login_attempts := 0, account_locked_until := none,
           last_login := none }]).1.message
    ∧ (app1_login (fun _ _ => false) "bob" "x" 0
        [{ id := 1, username := "bob", password_hash := "h", is_active := true,
           failed_login_attempts := 0, account_locked_until := none,
           last_login := none }]).1.success = false
    ∧ (app1_login (fun _ _ => false) "carol" "x" 0
        [{ id := 1, username := "bob", password_hash := "h", is_active := true,
           failed_login_attempts := 0, account_locked_until := none,
           last_login := none }]).1.success = false := by
  exact ⟨by decide, by decide, by decide⟩

/-- Technician row of the `technicians` table in src/garage_server.py. -/
structure Technician where
  id : Nat
  name : String
  status : String
  current_workload : Int
deriving DecidableEq

/-- `assign_technician` from src/garage_server.py: `SELECT id, name FROM
technicians WHERE status = 'available' ORDER BY current_workload ASC,
RANDOM() LIMIT 1`, then `UPDATE technicians SET current_workload =
current_workload + 1 WHERE id = ?` for the chosen row.  The `RANDOM()`
tie-break among the available technicians of minimal workload is
modelled by the `pick` parameter choosing among them. -/
def assign_technician (pick : Nat) (ts : List Technician) :
    Option (Nat × String) × List Technician :=
  let avail := ts.filter (fun t => t.status == "available")
  match (avail.map (fun t => t.current_workload)).min? with
  | none => (none, ts)
  | some m =>
    let cands := avail.filter (fun t => t.current_workload == m)
    match cands.get? (pick % cands.length) with
    | none => (none, ts)
    | some t =>
      (some (t.id, t.name),
       ts.map (fun x => if x.id == t.id then
         { x with current_workload := x.current_workload + 1 } else x))

/-- Technician-assignment part of `handle_add_booking` from
src/garage_server.py: when the request carries no truthy
`assigned_technician_id` (absent, so `None`, or the falsy `0`), call
`assign_technician` and use its technician id if one was returned. -/
def handle_add_booking_tech (assigned_technician_id : Option Nat) (pick : Nat)
    (ts : List Technician) : Option Nat × List Technician :=
  if assigned_technician_id = none ∨ assigned_technician_id = some 0 then
    match assign_technician pick ts with
    | (some p, ts2) => (some p.1, ts2)
    | (none, ts2) => (assigned_technician_id, ts2)
  else (assigned_technician_id, ts)

/-- C10: whenever some technician is available, `assign_technician`
(for every tie-break) returns an available technician of minimal
`current_workload` among the available ones, increments exactly that
technician's workload by 1 and leaves every other row unchanged; with
no available technician it returns `none` and changes nothing; and
adding a booking without an explicit `assigned_technician_id` delegates
to this assignment. -/
theorem c10_assign_technician_minimal (pick : Nat) (ts : List Technician)
    (hnodup : (ts.map (fun t => t.id)).Nodup)
    (havail : ∃ t ∈ ts, t.status = "available") :
    (∃ j : Nat, ∃ t : Technician, ts.get? j = some t
      ∧ (assign_technician pick ts).1 = some (t.id, t.name)
      ∧ t.status = "available"
      ∧ (∀ x ∈ ts, x.status = "available" → t.current_workload ≤ x.current_workload)
      ∧ (assign_technician pick ts).2.get? j
          = some { t with current_workload := t.current_workload + 1 }
      ∧ (∀ k, k ≠ j → (assign_technician pick ts).2.get? k = ts.get? k))
    ∧ (∀ ts2 : List Technician, (∀ t ∈ ts2, t.status ≠ "available") →
        assign_technician pick ts2 = (none, ts2))
    ∧ handle_add_booking_tech none pick ts
        = ((assign_technician pick ts).1.map (fun p => p.1),
           (assign_technician pick ts).2) := by
  refine ⟨?_, ?_, ?_⟩
  · obtain ⟨t0, ht0m, ht0s⟩ := havail
    have ht0a : t0 ∈ ts.filter (fun t => t.status == "available") :=
      List.mem_filter.mpr ⟨ht0m, by simp [ht0s]⟩
    have hw : t0.current_workload ∈
        (ts.filter (fun t => t.status == "available")).map
          (fun t => t.current_workload) :=
      List.mem_map_of_mem _ ht0a
    obtain ⟨m, hm⟩ := Option.isSome_iff_exists.mp (List.isSome_min?_of_mem hw)
    have hmmem := List.min?_mem (fun a b => min_choice a b) hm
    have hle : ∀ b ∈ (ts.filter (fun t => t.status == "available")).map
        (fun t => t.current_workload), m ≤ b :=
      (List.le_min?_iff (fun a b c => le_min_iff) hm).mp (le_refl m)
    obtain ⟨tc, htc, htcw⟩ := List.mem_map.mp hmmem
    have htcc : tc ∈ (ts.filter (fun t => t.status == "available")).filter
        (fun t => t.current_workload == m) :=
      List.mem_filter.mpr ⟨htc, by simp [htcw]⟩
    have hclen : 0 < ((ts.filter (fun t => t.status == "available")).filter
        (fun t => t.current_workload == m)).length :=
      List.length_pos.mpr (List.ne_nil_of_mem htcc)
    have hplt := Nat.mod_lt pick hclen
    have hget := List.get?_eq_get hplt
    set cands := (ts.filter (fun t => t.status == "available")).filter
      (fun t => t.current_workload == m) with hcands
    set t := cands.get ⟨pick % cands.length, hplt⟩ with ht
    have htcands : t ∈ cands := List.get_mem cands (pick % cands.length) hplt
    have htavail : t ∈ ts.filter (fun t => t.status == "available") :=
      List.mem_of_mem_filter htcands
    have htm : t ∈ ts := List.mem_of_mem_filter htavail
    have htst : t.status = "available" := by
      have := (List.mem_filter.mp htavail).2
      simpa using this
    have htwl : t.current_workload = m := by
      have := (List.mem_filter.mp htcands).2
      simpa using this
    have hassign : assign_technician pick ts
        = (some (t.id, t.name),
           ts.map (fun x => if x.id == t.id then
             { x with current_workload := x.current_workload + 1 } else x)) := by
      simp only [assign_technician]
      rw [hm]
      simp only [← hcands]
      rw [hget]
    obtain ⟨j, hj⟩ := List.get?_of_mem htm
    have hjlt : j < ts.length := (List.get?_eq_some.mp hj).1
    refine ⟨j, t, hj, by rw [hassign], htst, ?_, ?_, ?_⟩
    · intro x hx hxs
      have hxa : x ∈ ts.filter (fun t => t.status == "available") :=
        List.mem_filter.mpr ⟨hx, by simp [hxs]⟩
      have := hle x.current_workload (List.mem_map_of_mem _ hxa)
      omega
    · rw [hassign]
      show (ts.map _).get? j = _
      rw [List.get?_map, hj, Option.map_some']
      rw [if_pos (beq_self_eq_true t.id)]
    · intro k hk
      rw [hassign]
      show (ts.map _).get? k = _
      rw [List.get?_map]
      rcases hkk : ts.get? k with _ | x
      · rfl
      · rw [Option.map_some']
        have hklt : k < ts.length := (List.get?_eq_some.mp hkk).1
        have hxid : x.id ≠ t.id := by
          intro hcon
          apply hk
          have hidk : (ts.map (fun t => t.id)).get? k = some t.id := by
            rw [List.get?_map, hkk, Option.map_some', hcon]
          have hidj : (ts.map (fun t => t.id)).get? j = some t.id := by
            rw [List.get?_map, hj, Option.map_some']
          exact List.get?_inj (by simpa using hklt) hnodup (hidk.trans hidj.symm)
        rw [if_neg (by simpa using hxid)]
  · intro ts2 hnone
    have hfe : ts2.filter (fun t => t.status == "available") = [] := by
      rw [List.filter_eq_nil_iff]
      intro t htm
      simpa using hnone t htm
    simp only [assign_technician, hfe]
    rfl
  · rw [handle_add_booking_tech, if_pos (Or.inl rfl)]
    rcases ha : assign_technician pick ts with ⟨_ | p, ts2⟩
    · rfl
    · rfl

theorem c10_assign_technician_minimal_witness :
    assign_technician 0
        [{ id := 3, name := "eli", status := "busy", current_workload := 0 }]
      = (none, [{ id := 3, name := "eli", status := "busy", current_workload := 0 }]) :=
  (c10_assign_technician_minimal 0
      [{ id := 1, name := "amy", status := "available", current_workload := 2 }]
      (by decide)
      ⟨{ id := 1, name := "amy", status := "available", current_workload := 2 },
        by decide, by decide⟩).2.1
    [{ id := 3, name := "eli", status := "busy", current_workload := 0 }]
    (by decide)

end Garage
